import Mathlib

/-!
Verification development for the wampnado repository: a shallow embedding of
the router subsystem (URI manager, router Topic and Subscriber, message
processors) and of the legacy tornwamp SubscribeProcessor, together with
theorems settling the frozen claims about them.

Python dicts are embedded as insertion-ordered association lists; the
process-wide id generator (wampnado.identifier.create_global_id) is embedded
as an explicit natural-number counter threaded through every operation that
consumes fresh ids.  Raised Python exceptions are embedded as an Except
result carried alongside the mutated state, since in-place mutations
performed before a raise survive it.
-/

deriving instance DecidableEq for Except

namespace Wampnado

/-! ## Association-list model of Python dicts -/

/-- Keys of an association list, in order. -/
def keysOf {K V : Type} (l : List (K × V)) : List K := l.map Prod.fst

/-- Python `d.get(k)` / `k in d`: first binding of a key, if any. -/
def alookup {K V : Type} [DecidableEq K] : List (K × V) → K → Option V
  | [], _ => none
  | (k, v) :: rest, key => if k = key then some v else alookup rest key

/-- Overwrite the value at an existing key, keeping its position
(Python dict assignment to a present key keeps insertion order). -/
def aupdate {K V : Type} [DecidableEq K] : List (K × V) → K → V → List (K × V)
  | [], _, _ => []
  | (k, v) :: rest, key, nv =>
    if k = key then (k, nv) :: rest else (k, v) :: aupdate rest key nv

/-- Remove the first binding of a key (Python `del d[k]` / `d.pop(k)`). -/
def aerase {K V : Type} [DecidableEq K] : List (K × V) → K → List (K × V)
  | [], _ => []
  | (k, v) :: rest, key => if k = key then rest else (k, v) :: aerase rest key

/-- Python dict assignment `d[k] = v`: update in place when the key is
present, append at the end otherwise. -/
def aset {K V : Type} [DecidableEq K] (l : List (K × V)) (k : K) (v : V) :
    List (K × V) :=
  if (alookup l k).isSome then aupdate l k v else l ++ [(k, v)]


/-! ## URI name validation

Embedding of the compiled pattern in `URIManager.__init__`
(src/wampnado/uri/manager.py): `^([0-9a-z_]+\.)*([0-9a-z_]+)$`, checked with
`re.match`.  Without MULTILINE, `$` also matches just before a single
trailing newline, so the match accepts an optional final newline. -/

/-- A character allowed inside a URI segment: `[0-9a-z_]`. -/
def validChar (ch : Char) : Bool :=
  (('0' ≤ ch && ch ≤ '9') || ('a' ≤ ch && ch ≤ 'z') || ch = '_')

/-- Scan the anchored segment pattern.  The flag is true at the start of a
segment (where at least one valid character is required). -/
def uriChars : List Char → Bool → Bool
  | [], atSegStart => !atSegStart
  | ch :: rest, true => validChar ch && uriChars rest false
  | ch :: rest, false =>
    if ch = '.' then uriChars rest true else validChar ch && uriChars rest false

/-- `self.uri_pattern.match(uri_name)` viewed as a Bool: the anchored
lowercase-segment pattern, allowing one trailing newline (Python `$`). -/
def uri_pattern_ok (s : String) : Bool :=
  let cs := s.toList
  uriChars cs true ||
    (match cs.getLast? with
     | some ch => ch = '\n' && uriChars cs.dropLast true
     | none => false)

/-! ## Handlers, subscribers and router topics (src/wampnado/uri/topic.py) -/

/-- A transport-backed connection handler, reduced to what the router code
reads from it: its session identity and whether writing to its socket raises
`WebSocketClosedError`. -/
structure Handler where
  sessionid : Nat
  closed : Bool
deriving DecidableEq, Repr

/-- The argument of the `Subscriber` constructor: either a transport-backed
handler ("real") or a bare callback function ("pseudo"), matching the
`isfunction` dispatch in `Subscriber.__init__`. -/
inductive SubTarget
  | real (h : Handler)
  | pseudoCb
deriving DecidableEq, Repr

/-- The fixed server-side identity `server_auth_ident.sessionid`.
Modelled from the spec: wampnado/auth.py is not under src/; the spec
describes a single fixed server-side session identity. -/
def serverAuthSessionid : Nat := 0

structure Subscriber where
  subscription_id : Nat
  target : SubTarget
deriving DecidableEq, Repr

def Subscriber.pseudo (s : Subscriber) : Bool :=
  match s.target with
  | .pseudoCb => true
  | .real _ => false

/-- `Subscriber.sessionid`: the server identity for pseudo subscribers, the
handler's identity otherwise. -/
def Subscriber.sessionid (s : Subscriber) : Nat :=
  match s.target with
  | .pseudoCb => serverAuthSessionid
  | .real h => h.sessionid

/-- `Subscriber.__init__`: consumes one fresh global id for the
subscription id.  Returns the subscriber and the advanced id counter. -/
def Subscriber.make (target : SubTarget) (c : Nat) : Subscriber × Nat :=
  ({ subscription_id := c, target := target }, c + 1)

structure Topic where
  name : String
  registration_id : Nat
  reserver : Option Handler
  subscribers : List (Nat × Subscriber)
deriving DecidableEq, Repr

/-- `Topic.__init__`: empty subscriber table, fresh registration id. -/
def Topic.make (name : String) (reserver : Option Handler) (c : Nat) :
    Topic × Nat :=
  ({ name := name, registration_id := c, reserver := reserver,
     subscribers := [] }, c + 1)

/-- `Topic.add_subscriber`: builds a `Subscriber` (consuming a fresh id) and
inserts it keyed by that fresh subscription id; returns the id. -/
def Topic.add_subscriber (t : Topic) (target : SubTarget) (c : Nat) :
    Topic × Nat × Nat :=
  let sub := (Subscriber.make target c).1
  let c' := (Subscriber.make target c).2
  ({ t with subscribers := aset t.subscribers sub.subscription_id sub },
   sub.subscription_id, c')

/-- `Topic.remove_subscriber`: pops the entry keyed by the handler's
session id, when present. -/
def Topic.remove_subscriber (t : Topic) (handler : Handler) :
    Topic × Option Subscriber :=
  match alookup t.subscribers handler.sessionid with
  | some sub =>
    ({ t with subscribers := aerase t.subscribers handler.sessionid }, some sub)
  | none => (t, none)

/-- `Topic.disconnect`: clear a matching reservation, then attempt
subscriber removal. -/
def Topic.disconnect (t : Topic) (handler : Handler) : Topic :=
  let t := if t.reserver = some handler then { t with reserver := none } else t
  (t.remove_subscriber handler).1

/-- `Topic.live`: true iff the subscriber table is non-empty. -/
def Topic.live (t : Topic) : Bool :=
  decide (0 < (keysOf t.subscribers).length)

/-! ## Wire messages used by pub/sub (wampnado/messages.py is not under
src/; these records are modelled from the spec, keeping only the fields the
source under src/ reads). -/

/-- Message options record.  Modelled from the spec: an open named-field
container whose unknown fields read as absent; absent is falsy, so a
truthiness test on a field reads its value with default false. -/
def optTruthy (opts : List (String × Bool)) (field : String) : Bool :=
  (alookup opts field).getD false

structure PublishMessage where
  uri_name : String
  request_id : Nat
  args : List Nat
  kwargs : List (String × Nat)
  options : List (String × Bool)
deriving DecidableEq, Repr

structure PublishedMessage where
  request_id : Nat
  publication_id : Nat
deriving DecidableEq, Repr

structure EventMessage where
  subscription_id : Nat
  publication_id : Nat
  args : List Nat
  kwargs : List (String × Nat)
deriving DecidableEq, Repr

/-- Result of `Topic.publish`: the mutated topic, the advanced id counter,
the `write_message` invocations made on real subscribers (each may still
fail on a closed socket), the callback invocations made on pseudo
subscribers, and the returned value. -/
structure PublishOutcome where
  topic : Topic
  counter : Nat
  attempts : List (Nat × EventMessage)
  pseudo_calls : List Nat
  result : Option PublishedMessage
deriving DecidableEq, Repr

/-- The delivery condition of the fan-out loop: the publisher never receives
its own publication, so a real subscriber is written to only when there is
no origin handler or its session identity differs from the origin's. -/
def deliverTo (origin : Option Handler) (s : Subscriber) : Bool :=
  match origin with
  | none => true
  | some oh => decide (s.sessionid ≠ oh.sessionid)

/-- The fan-out loop of `Topic.publish`, in table order: pseudo subscribers
get their callback invoked with the payload; real subscribers get an Event
written unless the origin handler exists and has the same session identity;
a write on a closed socket raises `WebSocketClosedError` and marks the
subscription id for purge.  Returns (write attempts, callback calls,
purge list). -/
def fanout (origin : Option Handler) (pubId : Nat) (args : List Nat)
    (kwargs : List (String × Nat)) :
    List (Nat × Subscriber) →
      List (Nat × EventMessage) × List Nat × List Nat
  | [] => ([], [], [])
  | (sid, sub) :: rest =>
    let acc := fanout origin pubId args kwargs rest
    match sub.target with
    | .pseudoCb => (acc.1, sid :: acc.2.1, acc.2.2)
    | .real h =>
      let ev : EventMessage :=
        { subscription_id := sid, publication_id := pubId,
          args := args, kwargs := kwargs }
      if deliverTo origin sub then
        ((sid, ev) :: acc.1, acc.2.1,
         if h.closed then sid :: acc.2.2 else acc.2.2)
      else acc

/-- `Topic.publish`: generates a fresh publication id, fans out to every
subscriber, deletes purged subscription ids after the loop, and returns a
`Published` message echoing the request id with the topic's registration id
as publication id when the broadcast message's options field `acknowlege`
(spelled as in the source) is truthy, and no value otherwise. -/
def Topic.publish (t : Topic) (origin : Option Handler) (msg : PublishMessage)
    (c : Nat) : PublishOutcome :=
  let publication_id := c
  let c := c + 1
  let fo := fanout origin publication_id msg.args msg.kwargs t.subscribers
  let subs := fo.2.2.foldl (fun s sid => aerase s sid) t.subscribers
  { topic := { t with subscribers := subs }, counter := c, attempts := fo.1,
    pseudo_calls := fo.2.1,
    result :=
      if optTruthy msg.options "acknowlege" then
        some { request_id := msg.request_id,
               publication_id := t.registration_id }
      else none }

/-! ## URI objects and the URI manager (src/wampnado/uri/manager.py) -/

inductive URIType
  | topic
  | procedure
  | error
deriving DecidableEq, Repr

/-- The polymorphic URI entity stored in the manager.  `Topic` is embedded
from src/wampnado/uri/topic.py.  Modelled from the spec: wampnado/uri/error.py
and wampnado/uri/procedure.py are not under src/; per the spec both share the
URI fields (name, type tag, unique registration id), the Procedure
additionally holding its provider handler. -/
inductive URIObj
  | topic (t : Topic)
  | error (name : String) (registration_id : Nat)
  | procedure (name : String) (registration_id : Nat) (provider : Handler)
deriving DecidableEq, Repr

def URIObj.registration_id : URIObj → Nat
  | .topic t => t.registration_id
  | .error _ rid => rid
  | .procedure _ rid _ => rid

def URIObj.name : URIObj → String
  | .topic t => t.name
  | .error n _ => n
  | .procedure n _ _ => n

def URIObj.uri_type : URIObj → URIType
  | .topic _ => .topic
  | .error _ _ => .error
  | .procedure _ _ _ => .procedure

/-- `disconnect` on a stored URI.  Topics drop the handler from reservation
and subscription (src).  Modelled from the spec for error and procedure
URIs: the spec's disconnect asks each URI to drop the handler from any role
it holds, and an error/procedure URI holds no subscriber role, so they are
unchanged. -/
def URIObj.disconnect (u : URIObj) (handler : Handler) : URIObj :=
  match u with
  | .topic t => .topic (t.disconnect handler)
  | .error n rid => .error n rid
  | .procedure n rid p => .procedure n rid p

/-- `live` on a stored URI.  For topics this is src behavior.  Modelled from
the spec for error and procedure URIs, whose classes are not under src/:
the standard error catalog persists for the life of the manager and a
procedure stays registered while its provider is, so both count as live. -/
def URIObj.live (u : URIObj) : Bool :=
  match u with
  | .topic t => t.live
  | .error _ _ => true
  | .procedure _ _ _ => true

/-- `Error.__init__` (modelled from the spec: wampnado/uri/error.py not
under src/): an error URI with the given name and a fresh registration
id. -/
def ErrorURI.make (name : String) (c : Nat) : URIObj × Nat :=
  (.error name c, c + 1)

/-- `Procedure.__init__` (modelled from the spec: wampnado/uri/procedure.py
not under src/): holds the provider handler and a fresh registration id. -/
def Procedure.make (name : String) (provider : Handler) (c : Nat) :
    URIObj × Nat :=
  (.procedure name c provider, c + 1)

/-- A raised Python exception: either a structured WAMP protocol exception
(`to_simple_exception`, carrying the error URI's dotted name and the human
description) or a plain runtime error. -/
inductive PyErr
  | wamp (uri : String) (description : String)
  | attributeError (attr : String)
  | keyError
deriving DecidableEq, Repr

/-- The URI manager state: registration-id table, name table, and the
process-wide id generator state folded in as `counter`. -/
structure URIManager where
  registrations : List (Nat × String)
  uris : List (String × URIObj)
  counter : Nat
deriving DecidableEq, Repr

/-- `URIManager.get`: validate the name against the URI pattern (raising
`invalid_uri` on failure even when `noraise` is set), then look the name up,
raising `no_such_role` when absent unless `noraise`. -/
def URIManager.get (m : URIManager) (uriName : String) (noraise : Bool) :
    Except PyErr (Option URIObj) :=
  if !(uri_pattern_ok uriName) then
    .error (.wamp "wamp.error.invalid_uri" "uri is not valid.")
  else
    match alookup m.uris uriName with
    | none =>
      if noraise then .ok none
      else .error (.wamp "wamp.error.no_such_role" "not found")
    | some u => .ok (some u)

/-- `URIManager.create`: under the lock, look the name up without raising;
insert both mappings when absent; return the existing pair when present and
`returnifexists`; raise `procedure_already_exists` when present,
`returnifexists` false and `noraise` false; fall through to `None` when
present with both flags cleared. -/
def URIManager.create (m : URIManager) (name : String) (obj : URIObj)
    (returnifexists : Bool) (noraise : Bool) :
    URIManager × Except PyErr (Option (URIObj × Nat)) :=
  match m.get name true with
  | .error e => (m, .error e)
  | .ok none =>
    let rid := obj.registration_id
    ({ m with uris := aset m.uris name obj,
              registrations := aset m.registrations rid name },
     .ok (some (obj, rid)))
  | .ok (some u) =>
    if returnifexists then (m, .ok (some (u, u.registration_id)))
    else if !noraise then
      (m, .error (.wamp "wamp.error.procedure_already_exists"
        "uri already exists"))
    else (m, .ok none)

/-- `URIManager.create_topic`: construct a fresh `Topic` (consuming a global
id even when the name already exists), `create` it, then raise
`no_such_subscription` if the returned URI is not of topic type. -/
def URIManager.create_topic (m : URIManager) (name : String)
    (reserver : Option Handler) : URIManager × Except PyErr (URIObj × Nat) :=
  let t := (Topic.make name reserver m.counter).1
  let m := { m with counter := (Topic.make name reserver m.counter).2 }
  match m.create name (.topic t) true false with
  | (m', .error e) => (m', .error e)
  | (m', .ok none) => (m', .error (.attributeError "NoneType"))
  | (m', .ok (some (u, rid))) =>
    if u.uri_type ≠ URIType.topic then
      (m', .error (.wamp "wamp.error.no_such_subscription" "uri type error"))
    else (m', .ok (u, rid))

/-- `URIManager.create_error`. -/
def URIManager.create_error (m : URIManager) (name : String) :
    URIManager × Except PyErr (Option (URIObj × Nat)) :=
  let e := (ErrorURI.make name m.counter).1
  let m := { m with counter := (ErrorURI.make name m.counter).2 }
  m.create name e true false

/-- `URIManager.create_procedure`: `create` with `returnifexists = False`. -/
def URIManager.create_procedure (m : URIManager) (name : String)
    (provider : Handler) : URIManager × Except PyErr (Option (URIObj × Nat)) :=
  let p := (Procedure.make name provider m.counter).1
  let m := { m with counter := (Procedure.make name provider m.counter).2 }
  m.create name p false false

/-- The names of the standard error catalog created by
`URIManager.__init__`, in construction order. -/
def standardErrorNames : List String :=
  ["wamp.close.close_realm", "wamp.close.goodbye_and_out",
   "wamp.error.invalid_uri", "wamp.error.no_such_procedure",
   "wamp.error.procedure_already_exists", "wamp.error.no_such_registration",
   "wamp.error.no_such_subscription", "wamp.error.invalid_argument",
   "wamp.close.system_shutdown", "wamp.error.protocol_violation",
   "wamp.error.not_authorized", "wamp.error.authorization_failed",
   "wamp.error.no_such_realm", "wamp.error.no_such_role",
   "wamp.error.canceled", "wamp.error.option_not_allowed",
   "wamp.error.no_eligible_callee",
   "wamp.error.option_disallowed.disclose_me", "wamp.error.network_failure",
   "wamp.error.not_pending", "wamp.error.unsupported",
   "wamp.error.general_error"]

/-- `URIManager.__init__` with the id generator at `c0`: empty tables, then
one `create_error` per standard catalog name. -/
def URIManager.init (c0 : Nat) : URIManager :=
  standardErrorNames.foldl (fun m n => (m.create_error n).1)
    { registrations := [], uris := [], counter := c0 }

/-- `URIManager.remove`: pop the registration (no-op when unknown); when
found, a defensive scan pops duplicate bindings — popping by the name, a
string that is never a key of the int-keyed table, so any duplicate raises
`KeyError` — then pop and return the URI object. -/
def URIManager.remove (m : URIManager) (rid : Nat) :
    URIManager × Except PyErr (Option URIObj) :=
  match alookup m.registrations rid with
  | none => (m, .ok none)
  | some name =>
    let m := { m with registrations := aerase m.registrations rid }
    if name = "" then (m, .ok none)
    else if m.registrations.any (fun p => p.2 == name) then (m, .error .keyError)
    else
      match alookup m.uris name with
      | some u => ({ m with uris := aerase m.uris name }, .ok (some u))
      | none => (m, .error .keyError)

/-- `URIManager.add_subscriber`: ensure the topic exists via `create_topic`,
then delegate to the stored topic's `add_subscriber`, returning the new
subscription id. -/
def URIManager.add_subscriber (m : URIManager) (uriName : String)
    (handler : Handler) : URIManager × Except PyErr Nat :=
  match m.create_topic uriName none with
  | (m', .error e) => (m', .error e)
  | (m', .ok (u, _)) =>
    match alookup m'.uris u.name with
    | some (.topic t) =>
      let r := t.add_subscriber (.real handler) m'.counter
      ({ m' with uris := aset m'.uris u.name (.topic r.1),
                 counter := r.2.2 },
       .ok r.2.1)
    | some _ => (m', .error (.attributeError "add_subscriber"))
    | none => (m', .error .keyError)

/-- `URIManager.remove_subscriber`: look the name up with `dict.get` (an
absent name yields `None`, and the method call on it raises
`AttributeError`); delegate removal to the topic; then read
`uri.subscriptions` — an attribute `Topic` does not have — so the
empty-topic cleanup always raises `AttributeError` after the removal
mutation.  Non-topic URIs lack `remove_subscriber` (modelled from the spec,
which gives the subscriber role only to topics) and raise there. -/
def URIManager.remove_subscriber (m : URIManager) (uriName : String)
    (handler : Handler) : URIManager × Except PyErr Unit :=
  match alookup m.uris uriName with
  | none => (m, .error (.attributeError "NoneType"))
  | some (.topic t) =>
    let t' := (t.remove_subscriber handler).1
    ({ m with uris := aset m.uris uriName (.topic t') },
     .error (.attributeError "subscriptions"))
  | some _ => (m, .error (.attributeError "remove_subscriber"))

/-- `URIManager.disconnect`: snapshot the name list, ask each URI to drop
the handler, and delete from `uris` (only) every URI left non-live. -/
def URIManager.disconnect (m : URIManager) (handler : Handler) : URIManager :=
  (keysOf m.uris).foldl
    (fun m name =>
      match alookup m.uris name with
      | none => m
      | some u =>
        let u' := u.disconnect handler
        let m := { m with uris := aset m.uris name u' }
        if !u'.live then { m with uris := aerase m.uris name } else m)
    m

/-- `URIManager.publish`: generate a request id when none is supplied
(consuming a global id), look the topic up with `noraise` (an invalid name
still raises `invalid_uri`), do nothing when absent, and otherwise delegate
to the topic's `publish` with a `PublishMessage` built without options.
The second component returns the Event write attempts made, empty when the
name was absent. -/
def URIManager.publish (m : URIManager) (uriName : String)
    (origin : Option Handler) (args : List Nat)
    (kwargs : List (String × Nat)) (request_id : Option Nat) :
    URIManager × Except PyErr (List (Nat × EventMessage)) :=
  let rid := match request_id with
    | none => m.counter
    | some r => r
  let c1 := match request_id with
    | none => m.counter + 1
    | some _ => m.counter
  let m := { m with counter := c1 }
  match m.get uriName true with
  | .error e => (m, .error e)
  | .ok none => (m, .ok [])
  | .ok (some (.topic t)) =>
    let msg : PublishMessage :=
      { uri_name := uriName, request_id := rid, args := args,
        kwargs := kwargs, options := [] }
    let out := t.publish origin msg m.counter
    ({ m with uris := aset m.uris uriName (.topic out.topic),
              counter := out.counter },
     .ok out.attempts)
  | .ok (some _) => (m, .error (.attributeError "publish"))

/-! ## Processor framework and GoodbyeProcessor
(src/wampnado/processors/__init__.py) -/

/-- A wire message as the processors see it: its positional value sequence
(payload abstracted to naturals) and a details record whose `message` field
carries the human-readable text.  Modelled from the spec for the parts of
wampnado/messages.py not under src/. -/
structure WMessage where
  value : List Nat
  details : List (String × String)
deriving DecidableEq, Repr

/-- The result fields `Processor.__init__` sets before `process()` runs. -/
structure ProcState where
  answer_message : Option WMessage
  broadcast_messages : List WMessage
  must_close : Bool
  close_code : Option Nat
  close_reason : Option String
deriving DecidableEq, Repr

def ProcState.initial : ProcState :=
  { answer_message := none, broadcast_messages := [], must_close := false,
    close_code := none, close_reason := none }

/-- `e.message()` for a caught WAMP protocol exception: an Error message
whose details carry the description.  Modelled from the spec (§4.2, §4.7);
unreachable from the Goodbye path, which raises no WAMP exception. -/
def wampExceptionMessage (description : String) : WMessage :=
  { value := [], details := [("message", description)] }

/-- `Processor.__init__`: set the defaults, run `process()`, catch only
`WAMPException` (converted to its pre-built Error answer); any other raise
propagates out of the constructor, losing the partially-built object. -/
def processorNew (run : ProcState → ProcState × Except PyErr WMessage) :
    Except PyErr ProcState :=
  match run ProcState.initial with
  | (st, .ok ans) => .ok { st with answer_message := some ans }
  | (st, .error (.wamp _ d)) =>
    .ok { st with answer_message := some (wampExceptionMessage d) }
  | (_, .error e) => .error e

/-- `GoodbyeProcessor.process`: set `must_close` and `close_code = 1000`,
then read `self.answer_message.details.get('message', '')` — on the state
`__init__` hands to `process()` the pending answer is `None`, so the
attribute access raises `AttributeError` — and finally echo the inbound
message as a Goodbye. -/
def goodbyeProcess (inboundValue : List Nat) (st : ProcState) :
    ProcState × Except PyErr WMessage :=
  let st := { st with must_close := true, close_code := some 1000 }
  match st.answer_message with
  | none => (st, .error (.attributeError "details"))
  | some am =>
    let st :=
      { st with close_reason := some ((alookup am.details "message").getD "") }
    (st, .ok { value := inboundValue, details := [] })

/-- Constructing a `GoodbyeProcessor` on an inbound Goodbye message. -/
def goodbyeProcessorNew (inboundValue : List Nat) : Except PyErr ProcState :=
  processorNew (goodbyeProcess inboundValue)

/-! ## Legacy SubscribeProcessor
(src/tornwamp/processors/pubsub/__init__.py) -/

/-- A legacy client connection, opaque to the processor. -/
structure TornConnection where
  id : Nat
deriving DecidableEq, Repr

/-- The pluggable authorization extension point (tornwamp's `customize`
module is not under src/ and is deployment-defined, so the processor is
parametrized over it): a subscription-authorization policy and the
subscriber-registration operation returning the new subscription id. -/
structure SubscribePolicy where
  authorize_subscription : String → TornConnection → Bool × String
  add_subscriber : String → TornConnection → Nat

/-- A decoded Subscribe message: `code` carried by the wire tuple,
`request_id` and `topic`.  Modelled from the spec for tornwamp/messages.py,
which is not under src/. -/
structure SubscribeMessage where
  code : Nat
  request_id : Nat
  topic : String
deriving DecidableEq, Repr

structure SubscribedMessage where
  request_id : Nat
  subscription_id : Nat
deriving DecidableEq, Repr

structure TornErrorMessage where
  request_id : Nat
  request_code : Nat
  uri : String
  details : List (String × String)
deriving DecidableEq, Repr

inductive SubscribeAnswer
  | subscribed (msg : SubscribedMessage)
  | err (msg : TornErrorMessage)
deriving DecidableEq, Repr

/-- `ErrorMessage.error(description)`: attach the human-readable detail to
the message's details record under `message` (the field
`GoodbyeProcessor.process` reads back).  Modelled from the spec (§4.2). -/
def TornErrorMessage.attachError (m : TornErrorMessage) (d : String) :
    TornErrorMessage :=
  { m with details := aset m.details "message" d }

/-- `SubscribeProcessor.process`: ask the extension point whether the topic
may be subscribed; if allowed, register the connection and answer
Subscribed; if denied, answer an Error with the unauthorized URI and the
denial reason attached as detail. -/
def subscribeProcess (policy : SubscribePolicy) (msg : SubscribeMessage)
    (conn : TornConnection) : SubscribeAnswer :=
  let allow := (policy.authorize_subscription msg.topic conn).1
  let reason := (policy.authorize_subscription msg.topic conn).2
  if allow then
    .subscribed { request_id := msg.request_id,
                  subscription_id := policy.add_subscriber msg.topic conn }
  else
    .err (TornErrorMessage.attachError
      { request_id := msg.request_id, request_code := msg.code,
        uri := "tornwamp.subscribe.unauthorized", details := [] } reason)

/-! ## The registration/uri bijection invariant and the manager's operation
language (for claim C2) -/

/-- The claimed bijection: every key of `registrations` maps to a name
present in `uris` whose URI object carries that registration id, and every
name in `uris` has exactly one corresponding entry in `registrations`. -/
def bijInv (m : URIManager) : Bool :=
  (m.registrations.all (fun p =>
    match alookup m.uris p.2 with
    | some u => u.registration_id == p.1
    | none => false)) &&
  (m.uris.all (fun q =>
    (m.registrations.filter (fun p => p.2 == q.1)).length == 1))

/-- The URI manager's mutating operations other than `disconnect`, as
invoked through the repository's own entry points (`create` is exercised
through the typed creators, each of which builds a fresh URI object). -/
inductive MOp
  | createTopic (name : String) (reserver : Option Handler)
  | createError (name : String)
  | createProcedure (name : String) (provider : Handler)
  | removeReg (rid : Nat)
  | addSub (name : String) (handler : Handler)
  | removeSub (name : String) (handler : Handler)
deriving DecidableEq, Repr

def applyOp (m : URIManager) : MOp → URIManager
  | .createTopic n r => (m.create_topic n r).1
  | .createError n => (m.create_error n).1
  | .createProcedure n p => (m.create_procedure n p).1
  | .removeReg rid => (m.remove rid).1
  | .addSub n h => (m.add_subscriber n h).1
  | .removeSub n h => (m.remove_subscriber n h).1

def runOps (m : URIManager) (ops : List MOp) : URIManager :=
  ops.foldl applyOp m

/-- Strengthened inductive invariant for reachable URI manager states. -/
structure GoodMgr (m : URIManager) : Prop where
  regs_nodup : (keysOf m.registrations).Nodup
  uris_nodup : (keysOf m.uris).Nodup
  reg_to_uri : ∀ p ∈ m.registrations,
    ∃ u, alookup m.uris p.2 = some u ∧ u.registration_id = p.1
  uri_to_reg : ∀ q ∈ m.uris,
    (m.registrations.filter (fun p => p.2 == q.1)).length = 1
  lt_counter : ∀ p ∈ m.registrations, p.1 < m.counter
  names_valid : ∀ q ∈ m.uris, uri_pattern_ok q.1 = true

/-! ## Concrete executions used by counterexamples and code-bug
evaluations -/

/-- A fresh manager whose standard error catalog has been removed entry by
entry through `remove` (registration ids 0–21). -/
def c2StateCleared : URIManager :=
  (List.range 22).foldl (fun m rid => (m.remove rid).1) (URIManager.init 0)

/-- ... then a topic is created and a handler disconnects. -/
def c2StateAfterDisconnect : URIManager :=
  ((c2StateCleared.create_topic "a.b" none).1).disconnect
    { sessionid := 100, closed := false }

/-- A fresh manager holding topic `a.b` with exactly one subscriber, added
for the handler with session id 100. -/
def c3StateOneSub : URIManager :=
  ((((URIManager.init 0).create_topic "a.b" none).1).add_subscriber "a.b"
    { sessionid := 100, closed := false }).1

/-! ## Association-list lemmas -/

theorem alookup_eq_none {K V : Type} [DecidableEq K] (l : List (K × V)) (k : K) :
    alookup l k = none ↔ k ∉ keysOf l := by
  induction l with
  | nil => simp [alookup, keysOf]
  | cons p rest ih =>
    obtain ⟨k0, v0⟩ := p
    by_cases hk : k0 = k
    · subst hk
      simp [alookup, keysOf]
    · simp [alookup, hk, keysOf] at ih ⊢
      constructor
      · intro h
        exact ⟨fun he => hk he.symm, ih.mp h⟩
      · intro h
        exact ih.mpr h.2

theorem alookup_isSome_of_mem {K V : Type} [DecidableEq K] {l : List (K × V)}
    {k : K} {v : V} (h : (k, v) ∈ l) : (alookup l k).isSome := by
  induction l with
  | nil => simp at h
  | cons p rest ih =>
    obtain ⟨k0, v0⟩ := p
    rcases List.mem_cons.mp h with h0 | h0
    · cases h0
      simp [alookup]
    · by_cases hk : k0 = k
      · simp [alookup, hk]
      · simpa [alookup, hk] using ih h0

theorem alookup_append {K V : Type} [DecidableEq K] (l1 l2 : List (K × V)) (k : K) :
    alookup (l1 ++ l2) k =
      (match alookup l1 k with
       | some v => some v
       | none => alookup l2 k) := by
  induction l1 with
  | nil => simp [alookup]
  | cons p rest ih =>
    obtain ⟨k0, v0⟩ := p
    by_cases hk : k0 = k <;> simp [alookup, hk, ih]

theorem alookup_aupdate_self {K V : Type} [DecidableEq K] {l : List (K × V)}
    {k : K} (h : (alookup l k).isSome) (v : V) :
    alookup (aupdate l k v) k = some v := by
  induction l with
  | nil => simp [alookup] at h
  | cons p rest ih =>
    obtain ⟨k0, v0⟩ := p
    by_cases hk : k0 = k
    · simp [alookup, aupdate, hk]
    · simp [alookup, aupdate, hk] at h ⊢
      exact ih h

theorem alookup_aupdate_ne {K V : Type} [DecidableEq K] (l : List (K × V))
    (k k' : K) (v : V) (h : k' ≠ k) :
    alookup (aupdate l k v) k' = alookup l k' := by
  induction l with
  | nil => simp [aupdate]
  | cons p rest ih =>
    obtain ⟨k0, v0⟩ := p
    by_cases hk : k0 = k
    · subst hk
      have hne : k0 ≠ k' := fun he => h he.symm
      simp [aupdate, alookup, hne]
    · by_cases hk' : k0 = k' <;> simp [alookup, aupdate, hk, hk', ih, h]

theorem keysOf_aupdate {K V : Type} [DecidableEq K] (l : List (K × V))
    (k : K) (v : V) : keysOf (aupdate l k v) = keysOf l := by
  induction l with
  | nil => simp [aupdate]
  | cons p rest ih =>
    obtain ⟨k0, v0⟩ := p
    by_cases hk : k0 = k <;> simp [aupdate, keysOf, hk] at ih ⊢ <;> simp [ih]

theorem mem_aupdate {K V : Type} [DecidableEq K] {l : List (K × V)}
    {k : K} {v : V} {p : K × V} (h : p ∈ aupdate l k v) :
    p = (k, v) ∨ p ∈ l := by
  induction l with
  | nil => simp [aupdate] at h
  | cons q rest ih =>
    obtain ⟨k0, v0⟩ := q
    by_cases hk : k0 = k
    · subst hk
      simp [aupdate] at h
      rcases h with h | h
      · exact Or.inl h
      · exact Or.inr (List.mem_cons_of_mem _ h)
    · simp [aupdate, hk] at h
      rcases h with h | h
      · exact Or.inr (by simp [h])
      · rcases ih h with h' | h'
        · exact Or.inl h'
        · exact Or.inr (List.mem_cons_of_mem _ h')

theorem aset_of_none {K V : Type} [DecidableEq K] {l : List (K × V)} {k : K}
    (h : alookup l k = none) (v : V) : aset l k v = l ++ [(k, v)] := by
  simp [aset, h]

theorem aset_of_isSome {K V : Type} [DecidableEq K] {l : List (K × V)} {k : K}
    (h : (alookup l k).isSome) (v : V) : aset l k v = aupdate l k v := by
  simp [aset, h]

/-- Decompose a list at the first binding of a present key. -/
theorem aerase_decomp {K V : Type} [DecidableEq K] {l : List (K × V)} {k : K}
    {v : V} (h : alookup l k = some v) :
    ∃ l1 l2, l = l1 ++ (k, v) :: l2 ∧ aerase l k = l1 ++ l2 ∧
      ∀ p ∈ l1, p.1 ≠ k := by
  induction l with
  | nil => simp [alookup] at h
  | cons p rest ih =>
    obtain ⟨k0, v0⟩ := p
    by_cases hk : k0 = k
    · subst hk
      simp [alookup] at h
      subst h
      exact ⟨[], rest, by simp [aerase]⟩
    · simp [alookup, hk] at h
      obtain ⟨l1, l2, he, herase, hne⟩ := ih h
      refine ⟨(k0, v0) :: l1, l2, by simp [he], by simp [aerase, hk, herase], ?_⟩
      intro q hq
      rcases List.mem_cons.mp hq with h0 | h0
      · simp [h0]
        exact hk
      · exact hne q h0

theorem aerase_of_none {K V : Type} [DecidableEq K] {l : List (K × V)} {k : K}
    (h : alookup l k = none) : aerase l k = l := by
  induction l with
  | nil => simp [aerase]
  | cons p rest ih =>
    obtain ⟨k0, v0⟩ := p
    by_cases hk : k0 = k
    · simp [alookup, hk] at h
    · simp [alookup, hk] at h
      simp [aerase, hk, ih h]
theorem alookup_aset_self {K V : Type} [DecidableEq K] (l : List (K × V))
    (k : K) (v : V) : alookup (aset l k v) k = some v := by
  cases hl : alookup l k with
  | some w =>
    rw [aset_of_isSome (by simp [hl])]
    exact alookup_aupdate_self (by simp [hl]) v
  | none =>
    rw [aset_of_none hl, alookup_append, hl]
    simp [alookup]

/-! ## Fan-out lemmas (Topic.publish) -/

/-- Every write attempt made by the fan-out loop targets a key of the
subscriber table. -/
theorem fanout_attempts_keys_subset (origin : Option Handler) (pubId : Nat)
    (args : List Nat) (kwargs : List (String × Nat))
    (l : List (Nat × Subscriber)) :
    ∀ k ∈ keysOf (fanout origin pubId args kwargs l).1, k ∈ keysOf l := by
  induction l with
  | nil => simp [fanout, keysOf]
  | cons p rest ih =>
    obtain ⟨sid, sub⟩ := p
    intro k hk
    cases htgt : sub.target with
    | pseudoCb =>
      simp only [fanout, htgt, keysOf] at hk
      exact List.mem_cons_of_mem _ (ih k hk)
    | real h =>
      simp only [fanout, htgt] at hk
      by_cases hdel : deliverTo origin sub = true
      · rw [if_pos hdel] at hk
        simp only [keysOf, List.map_cons, List.mem_cons] at hk
        rcases hk with hk | hk
        · simp [keysOf, hk]
        · exact List.mem_cons_of_mem _ (ih k hk)
      · rw [if_neg hdel] at hk
        exact List.mem_cons_of_mem _ (ih k hk)

/-- A real subscriber's key is among the fan-out write attempts exactly when
there is no origin handler or its session identity differs from the
origin's. -/
theorem fanout_mem_attempts (origin : Option Handler) (pubId : Nat)
    (args : List Nat) (kwargs : List (String × Nat))
    (l : List (Nat × Subscriber)) (sid : Nat) (sub : Subscriber) (h : Handler)
    (hnd : (keysOf l).Nodup) (hmem : (sid, sub) ∈ l)
    (hreal : sub.target = .real h) :
    (sid ∈ keysOf (fanout origin pubId args kwargs l).1 ↔
      (match origin with
       | none => True
       | some oh => h.sessionid ≠ oh.sessionid)) := by
  induction l with
  | nil => simp at hmem
  | cons p rest ih =>
    obtain ⟨sid0, sub0⟩ := p
    have hndc : (sid0 :: keysOf rest).Nodup := by simpa [keysOf] using hnd
    have hnd2 := List.nodup_cons.mp hndc
    rcases List.mem_cons.mp hmem with hcase | hcase
    · injection hcase with h1 h2
      subst h1
      subst h2
      have hnot : sid ∉ keysOf (fanout origin pubId args kwargs rest).1 :=
        fun hc => hnd2.1 (fanout_attempts_keys_subset _ _ _ _ _ _ hc)
      have hsess : sub.sessionid = h.sessionid := by
        simp [Subscriber.sessionid, hreal]
      cases origin with
      | none =>
        simp only [fanout, hreal]
        rw [if_pos (show deliverTo none sub = true from rfl)]
        simp [keysOf]
      | some oh =>
        simp only [fanout, hreal]
        by_cases hne : h.sessionid = oh.sessionid
        · have hdel : ¬(deliverTo (some oh) sub = true) := by
            simp [deliverTo, hsess, hne]
          rw [if_neg hdel]
          simp [hnot, hne]
        · have hdel : deliverTo (some oh) sub = true := by
            simp [deliverTo, hsess, hne]
          rw [if_pos hdel]
          simp [keysOf, hne]
    · have hsid : sid ∈ keysOf rest := by
        simpa [keysOf] using List.mem_map_of_mem Prod.fst hcase
      have hne0 : sid ≠ sid0 := fun he => hnd2.1 (he ▸ hsid)
      have ihr := ih hnd2.2 hcase
      cases htgt0 : sub0.target with
      | pseudoCb =>
        simpa only [fanout, htgt0] using ihr
      | real h0 =>
        simp only [fanout, htgt0]
        by_cases hdel : deliverTo origin sub0 = true
        · rw [if_pos hdel]
          simp only [keysOf, List.map_cons, List.mem_cons] at ihr ⊢
          constructor
          · intro hx
            rcases hx with hx | hx
            · exact absurd hx hne0
            · exact ihr.mp hx
          · intro hx
            exact Or.inr (ihr.mpr hx)
        · rw [if_neg hdel]
          exact ihr

/-- **C4**: for every router Topic and broadcast message, `Topic.publish`
returns a Published message echoing the broadcast message's request id and
carrying the topic's registration id (not the per-event publication id) as
publication id exactly when the message's options request acknowledgement
(the truthy options field `acknowlege`, spelled as in the source), and no
value otherwise. -/
theorem c4_publish_acknowledge_result (t : Topic) (origin : Option Handler)
    (msg : PublishMessage) (c : Nat) :
    (t.publish origin msg c).result =
      (if optTruthy msg.options "acknowlege" then
        some { request_id := msg.request_id,
               publication_id := t.registration_id }
      else none) := by
  simp [Topic.publish]

/-- **C5**: on every publish with a non-nil origin handler, a real
subscriber whose session identity equals the origin's is never written the
Event message, while every other real subscriber is; with a nil origin every
real subscriber is written the Event message. -/
theorem c5_self_exclusion (t : Topic) (origin : Option Handler)
    (msg : PublishMessage) (c : Nat) (sid : Nat) (sub : Subscriber)
    (h : Handler) (hnd : (keysOf t.subscribers).Nodup)
    (hmem : (sid, sub) ∈ t.subscribers) (hreal : sub.target = .real h) :
    (origin = none → sid ∈ keysOf (t.publish origin msg c).attempts) ∧
    (∀ oh, origin = some oh →
      (h.sessionid = oh.sessionid →
        sid ∉ keysOf (t.publish origin msg c).attempts) ∧
      (h.sessionid ≠ oh.sessionid →
        sid ∈ keysOf (t.publish origin msg c).attempts)) := by
  have hatt : (t.publish origin msg c).attempts =
      (fanout origin c msg.args msg.kwargs t.subscribers).1 := by
    simp [Topic.publish]
  have hiff := fanout_mem_attempts origin c msg.args msg.kwargs t.subscribers
    sid sub h hnd hmem hreal
  constructor
  · intro ho
    subst ho
    rw [hatt]
    exact hiff.mpr trivial
  · intro oh ho
    subst ho
    rw [hatt]
    exact ⟨fun he hc => (hiff.mp hc) he, fun hne => hiff.mpr hne⟩

theorem c5_self_exclusion_witness :
    10 ∉ keysOf ((Topic.mk "x" 1 none
        [(10, ⟨10, .real ⟨5, false⟩⟩), (11, ⟨11, .real ⟨6, false⟩⟩)]).publish
        (some ⟨5, false⟩)
        ⟨"x", 7, [], [], []⟩ 50).attempts := by
  have hc := c5_self_exclusion
    (Topic.mk "x" 1 none
      [(10, ⟨10, .real ⟨5, false⟩⟩), (11, ⟨11, .real ⟨6, false⟩⟩)])
    (some ⟨5, false⟩) ⟨"x", 7, [], [], []⟩ 50 10 ⟨10, .real ⟨5, false⟩⟩
    ⟨5, false⟩ (by decide) (by decide) rfl
  exact ((hc.2 ⟨5, false⟩ rfl).1 rfl)

/-- **C10**: router subscriber bookkeeping is keyed asymmetrically —
insertion under a fresh subscription id, removal under the handler's session
identity — so for a handler whose session identity matches no key of the
table after the add, `add_subscriber` followed by `remove_subscriber` leaves
the added subscriber in place. -/
theorem c10_add_remove_not_roundtrip (t : Topic) (h : Handler) (c : Nat)
    (hid : ∀ k ∈ keysOf (t.add_subscriber (.real h) c).1.subscribers,
      h.sessionid ≠ k) :
    ((t.add_subscriber (.real h) c).1.remove_subscriber h).1 =
        (t.add_subscriber (.real h) c).1 ∧
      alookup (t.add_subscriber (.real h) c).1.subscribers
          (t.add_subscriber (.real h) c).2.1 =
        some { subscription_id := (t.add_subscriber (.real h) c).2.1,
               target := .real h } := by
  have hnone : alookup (t.add_subscriber (.real h) c).1.subscribers
      h.sessionid = none := by
    rw [alookup_eq_none]
    intro hc
    exact hid h.sessionid hc rfl
  constructor
  · simp [Topic.remove_subscriber, hnone]
  · simp [Topic.add_subscriber, Subscriber.make, alookup_aset_self]

theorem c10_add_remove_not_roundtrip_witness :
    (((Topic.mk "a" 5 none []).add_subscriber
          (.real ⟨7, false⟩) 9).1.remove_subscriber ⟨7, false⟩).1 =
      ((Topic.mk "a" 5 none []).add_subscriber (.real ⟨7, false⟩) 9).1 :=
  (c10_add_remove_not_roundtrip (Topic.mk "a" 5 none []) ⟨7, false⟩ 9
    (by decide)).1

/-- **C1** (evaluating the code at the failing input): constructing a
`GoodbyeProcessor` on any inbound Goodbye message raises `AttributeError`,
because `Processor.__init__` sets `answer_message = None` before invoking
`process()`, which then reads `self.answer_message.details`; the exception
is not a `WAMPException`, so it escapes the constructor and no processor
with `must_close`, `close_code` and an answer is ever produced. -/
theorem c1_goodbye_constructor_raises (inboundValue : List Nat) :
    goodbyeProcessorNew inboundValue = .error (.attributeError "details") :=
  rfl

/-- **C9**: `SubscribeProcessor.process` answers Subscribed carrying the
request's request id and the subscription id returned by the extension
point's `add_subscriber` when `authorize_subscription` allows the topic, and
answers an Error with uri `tornwamp.subscribe.unauthorized` carrying the
denial reason as detail when it denies. -/
theorem c9_subscribe_processor (policy : SubscribePolicy)
    (msg : SubscribeMessage) (conn : TornConnection) :
    subscribeProcess policy msg conn =
      (if (policy.authorize_subscription msg.topic conn).1 then
        .subscribed { request_id := msg.request_id,
                      subscription_id := policy.add_subscriber msg.topic conn }
      else
        .err { request_id := msg.request_id, request_code := msg.code,
               uri := "tornwamp.subscribe.unauthorized",
               details := [("message",
                 (policy.authorize_subscription msg.topic conn).2)] }) := by
  by_cases hal : (policy.authorize_subscription msg.topic conn).1 = true <;>
    simp [subscribeProcess, TornErrorMessage.attachError, aset, alookup, hal]

/-- **C3** (evaluating the code at the failing input): on a manager holding
topic `a.b` with exactly one subscriber (added for the handler with session
id 100) and no publishers, `remove_subscriber` raises `AttributeError`
(reading the nonexistent `uri.subscriptions`), leaves the manager state
unchanged — the subscriber is still in the topic's table, because removal is
keyed by session identity while insertion was keyed by subscription id — and
the topic remains registered. -/
theorem c3_remove_subscriber_crashes :
    (c3StateOneSub.remove_subscriber "a.b"
        { sessionid := 100, closed := false }).2 =
      .error (.attributeError "subscriptions") ∧
    (c3StateOneSub.remove_subscriber "a.b"
        { sessionid := 100, closed := false }).1 = c3StateOneSub ∧
    alookup c3StateOneSub.uris "a.b" =
      some (URIObj.topic (Topic.mk "a.b" 22 none
        [(24, Subscriber.mk 24 (SubTarget.real (Handler.mk 100 false)))])) ∧
    alookup c3StateOneSub.registrations 22 = some "a.b" := by
  decide

/-- **C8** counterexample: the name `A` has no entry in a fresh manager's
registry, yet publishing to it raises the `invalid_uri` protocol error
(`get` validates the pattern even with `noraise` set), refuting the claim
that publishing to every absent topic name raises no error. -/
theorem c8_counterexample :
    alookup (URIManager.init 0).uris "A" = none ∧
    ((URIManager.init 0).publish "A" none [] [] none).2 =
      .error (.wamp "wamp.error.invalid_uri" "uri is not valid.") := by
  decide

/-- **C2** counterexample: a concrete operation sequence — remove the
standard error registrations, create topic `a.b`, then `disconnect` a
handler — leaves a registration entry (id 22 → `a.b`) whose name is no
longer in `uris`, because `disconnect` deletes non-live URIs from `uris`
without touching `registrations`; the bijection invariant fails. -/
theorem c2_counterexample :
    bijInv (URIManager.init 0) = true ∧
    bijInv c2StateAfterDisconnect = false ∧
    alookup c2StateAfterDisconnect.registrations 22 = some "a.b" ∧
    alookup c2StateAfterDisconnect.uris "a.b" = none := by
  decide

/-! ## Registry-count lemmas -/

theorem filter_key_eq_nil {K V : Type} [DecidableEq K] {l : List (K × V)}
    {k : K} (h : alookup l k = none) :
    l.filter (fun q => q.1 == k) = [] := by
  rw [List.filter_eq_nil]
  intro p hp
  simp only [beq_iff_eq]
  intro he
  rw [alookup_eq_none] at h
  exact h (he ▸ (List.mem_map_of_mem Prod.fst hp))

theorem filter_key_length_one {K V : Type} [DecidableEq K] {l : List (K × V)}
    {k : K} {v : V} (hnd : (keysOf l).Nodup) (h : alookup l k = some v) :
    (l.filter (fun q => q.1 == k)).length = 1 := by
  obtain ⟨l1, l2, he, _, hne⟩ := aerase_decomp h
  subst he
  have hk2 : k ∉ keysOf l2 := by
    have : (keysOf l1 ++ k :: keysOf l2).Nodup := by
      simpa [keysOf] using hnd
    exact ((List.nodup_append.mp this).2.1 |> List.nodup_cons.mp).1
  have h1 : l1.filter (fun q => q.1 == k) = [] := by
    rw [List.filter_eq_nil]
    intro p hp
    simp only [beq_iff_eq]
    exact hne p hp
  have h2 : l2.filter (fun q => q.1 == k) = [] := by
    rw [List.filter_eq_nil]
    intro p hp
    simp only [beq_iff_eq]
    intro heq
    exact hk2 (heq ▸ (List.mem_map_of_mem Prod.fst hp))
  rw [List.filter_append, h1]
  simp [h2]

/-- **C7**: on every manager, for a pattern-valid procedure name with no
existing registry entry, the first `create_procedure` succeeds, and a second
call with the same name (any provider) raises the
`procedure_already_exists` protocol error and leaves `uris` and
`registrations` unchanged. -/
theorem c7_procedure_uniqueness (m : URIManager) (name : String)
    (p1 p2 : Handler) (hvalid : uri_pattern_ok name = true)
    (habsent : alookup m.uris name = none) :
    (m.create_procedure name p1).2 =
      .ok (some (URIObj.procedure name m.counter p1, m.counter)) ∧
    ((m.create_procedure name p1).1.create_procedure name p2).2 =
      .error (.wamp "wamp.error.procedure_already_exists"
        "uri already exists") ∧
    ((m.create_procedure name p1).1.create_procedure name p2).1.uris =
      (m.create_procedure name p1).1.uris ∧
    ((m.create_procedure name p1).1.create_procedure name p2).1.registrations
      = (m.create_procedure name p1).1.registrations := by
  have hsome : alookup
      (aset m.uris name (URIObj.procedure name m.counter p1)) name =
      some (URIObj.procedure name m.counter p1) := alookup_aset_self _ _ _
  refine ⟨?_, ?_, ?_, ?_⟩ <;>
    simp [URIManager.create_procedure, Procedure.make, URIManager.create,
      URIManager.get, hvalid, habsent, hsome, URIObj.registration_id]

theorem c7_procedure_uniqueness_witness :
    ((URIManager.init 0).create_procedure "x.y" (Handler.mk 1 false)).2 =
      .ok (some (URIObj.procedure "x.y" 22 (Handler.mk 1 false), 22)) :=
  (c7_procedure_uniqueness (URIManager.init 0) "x.y" (Handler.mk 1 false)
    (Handler.mk 2 false) (by decide) (by decide)).1

/-- **C6**: when a `create_topic` call succeeds on a manager with
duplicate-free registry keys, calling it again with the same name (default
`returnifexists`) returns the same URI object and registration id, changes
neither registry table, and the registry holds exactly one entry for the
name. -/
theorem c6_idempotent_create_topic (m : URIManager) (name : String)
    (u : URIObj) (rid : Nat) (hnd : (keysOf m.uris).Nodup)
    (hfst : (m.create_topic name none).2 = .ok (u, rid)) :
    ((m.create_topic name none).1.create_topic name none).2 = .ok (u, rid) ∧
    ((m.create_topic name none).1.create_topic name none).1.uris =
      (m.create_topic name none).1.uris ∧
    ((m.create_topic name none).1.create_topic name none).1.registrations =
      (m.create_topic name none).1.registrations ∧
    (((m.create_topic name none).1.uris.filter
      (fun q => q.1 == name)).length = 1) := by
  by_cases hvalid : uri_pattern_ok name = true
  · cases hl : alookup m.uris name with
    | none =>
      have hfst' := hfst
      simp [URIManager.create_topic, Topic.make, URIManager.create,
        URIManager.get, hvalid, hl, URIObj.uri_type,
        URIObj.registration_id] at hfst'
      obtain ⟨hu, hrid⟩ := hfst'
      have hsome : alookup
          (aset m.uris name
            (URIObj.topic (Topic.mk name m.counter none []))) name =
          some (URIObj.topic (Topic.mk name m.counter none [])) :=
        alookup_aset_self _ _ _
      have hfilter : ((aset m.uris name
          (URIObj.topic (Topic.mk name m.counter none []))).filter
          (fun q => q.1 == name)).length = 1 := by
        rw [aset_of_none hl, List.filter_append, filter_key_eq_nil hl]
        simp
      refine ⟨?_, ?_, ?_, ?_⟩ <;>
        simp [URIManager.create_topic, Topic.make, URIManager.create,
          URIManager.get, hvalid, hl, hsome, URIObj.uri_type,
          URIObj.registration_id, hu.symm, hrid.symm, hfilter]
    | some w =>
      have hfst' := hfst
      simp [URIManager.create_topic, Topic.make, URIManager.create,
        URIManager.get, hvalid, hl] at hfst'
      by_cases hty : w.uri_type = URIType.topic
      · simp [hty] at hfst'
        obtain ⟨hu, hrid⟩ := hfst'
        subst hu
        subst hrid
        refine ⟨?_, ?_, ?_, ?_⟩ <;>
          simp [URIManager.create_topic, Topic.make, URIManager.create,
            URIManager.get, hvalid, hl, hty, filter_key_length_one hnd hl]
      · simp [hty] at hfst'
  · have : (m.create_topic name none).2 =
        .error (.wamp "wamp.error.invalid_uri" "uri is not valid.") := by
      simp [URIManager.create_topic, Topic.make, URIManager.create,
        URIManager.get, hvalid]
    rw [this] at hfst
    exact absurd hfst (by simp)

theorem c6_idempotent_create_topic_witness :
    (((URIManager.init 0).create_topic "a.b" none).1.create_topic
        "a.b" none).2 =
      .ok (URIObj.topic (Topic.mk "a.b" 22 none []), 22) :=
  (c6_idempotent_create_topic (URIManager.init 0) "a.b"
    (URIObj.topic (Topic.mk "a.b" 22 none [])) 22 (by decide) (by decide)).1

/-- **C8** (amended): for every pattern-valid topic name with no registry
entry, `publish` raises no error, makes no write attempt, and leaves both
registry tables unchanged (an absent name failing the pattern instead
raises `invalid_uri`, per the counterexample). -/
theorem c8_amended_publish_silent (m : URIManager) (name : String)
    (origin : Option Handler) (args : List Nat)
    (kwargs : List (String × Nat)) (reqId : Option Nat)
    (hvalid : uri_pattern_ok name = true)
    (habsent : alookup m.uris name = none) :
    (m.publish name origin args kwargs reqId).2 = .ok [] ∧
    (m.publish name origin args kwargs reqId).1.uris = m.uris ∧
    (m.publish name origin args kwargs reqId).1.registrations =
      m.registrations := by
  cases reqId <;>
    simp [URIManager.publish, URIManager.get, hvalid, habsent]

theorem c8_amended_publish_silent_witness :
    ((URIManager.init 0).publish "x.y" none [] [] none).2 = .ok [] :=
  (c8_amended_publish_silent (URIManager.init 0) "x.y" none [] [] none
    (by decide) (by decide)).1

/-! ## Invariant preservation for the URI manager (claim C2) -/

theorem alookup_some_mem {K V : Type} [DecidableEq K] {l : List (K × V)}
    {k : K} {v : V} (h : alookup l k = some v) : (k, v) ∈ l := by
  induction l with
  | nil => simp [alookup] at h
  | cons p rest ih =>
    obtain ⟨k0, v0⟩ := p
    by_cases hk : k0 = k
    · subst hk
      simp [alookup] at h
      simp [h]
    · simp [alookup, hk] at h
      exact List.mem_cons_of_mem _ (ih h)

theorem alookup_aerase_ne {K V : Type} [DecidableEq K] (l : List (K × V))
    (k k' : K) (h : k' ≠ k) : alookup (aerase l k) k' = alookup l k' := by
  induction l with
  | nil => simp [aerase]
  | cons p rest ih =>
    obtain ⟨k0, v0⟩ := p
    by_cases hk : k0 = k
    · subst hk
      have hne : k0 ≠ k' := fun he => h he.symm
      simp [aerase, alookup, hne]
    · by_cases hk' : k0 = k' <;> simp [aerase, alookup, hk, hk', ih, h]

theorem aerase_sublist {K V : Type} [DecidableEq K] (l : List (K × V))
    (k : K) : List.Sublist (aerase l k) l := by
  induction l with
  | nil => simp [aerase]
  | cons p rest ih =>
    obtain ⟨k0, v0⟩ := p
    by_cases hk : k0 = k
    · simpa [aerase, hk] using List.sublist_cons_self (k0, v0) rest
    · simpa [aerase, hk] using ih.cons₂ (k0, v0)

theorem mem_keysOf {K V : Type} {l : List (K × V)} {k : K} :
    k ∈ keysOf l ↔ ∃ v, (k, v) ∈ l := by
  constructor
  · intro h
    obtain ⟨p, hp, he⟩ := List.mem_map.mp h
    exact ⟨p.2, by simpa [← he] using hp⟩
  · intro ⟨v, hv⟩
    simpa [keysOf] using List.mem_map_of_mem Prod.fst hv

theorem uri_pattern_ok_empty : uri_pattern_ok "" = false := by decide

theorem goodMgr_empty (c0 : Nat) :
    GoodMgr { registrations := [], uris := [], counter := c0 } := by
  constructor <;> simp [keysOf]

theorem goodMgr_counter_le {m : URIManager} (hg : GoodMgr m) {c' : Nat}
    (hc : m.counter ≤ c') : GoodMgr { m with counter := c' } := by
  refine ⟨hg.regs_nodup, hg.uris_nodup, hg.reg_to_uri, hg.uri_to_reg,
    ?_, hg.names_valid⟩
  intro p hp
  exact lt_of_lt_of_le (hg.lt_counter p hp) hc

/-- Characterization of `create` on an absent, pattern-valid name. -/
theorem create_insert {m : URIManager} {name : String} (obj : URIObj)
    (rie nr : Bool) (hv : uri_pattern_ok name = true)
    (hl : alookup m.uris name = none) :
    m.create name obj rie nr =
      ({ m with
          uris := m.uris ++ [(name, obj)],
          registrations :=
            aset m.registrations obj.registration_id name },
       .ok (some (obj, obj.registration_id))) := by
  unfold URIManager.create URIManager.get
  simp [hv, hl, aset_of_none hl]

/-- `create` on an existing name leaves the state unchanged. -/
theorem create_fst_exists {m : URIManager} {name : String} (obj : URIObj)
    (rie nr : Bool) (hv : uri_pattern_ok name = true) {u : URIObj}
    (hl : alookup m.uris name = some u) :
    (m.create name obj rie nr).1 = m := by
  unfold URIManager.create URIManager.get
  cases rie <;> cases nr <;> simp [hv, hl]

/-- `create` on a pattern-invalid name raises and leaves the state
unchanged. -/
theorem create_invalid {m : URIManager} {name : String} (obj : URIObj)
    (rie nr : Bool) (hv : ¬ uri_pattern_ok name = true) :
    m.create name obj rie nr =
      (m, .error (.wamp "wamp.error.invalid_uri" "uri is not valid.")) := by
  unfold URIManager.create URIManager.get
  simp [hv]

/-- `create` preserves the strengthened invariant, provided the supplied
URI object's registration id is fresh (as it is for every in-repo caller,
which builds the object from the id generator). -/
theorem goodMgr_create {m : URIManager} (hg : GoodMgr m) (name : String)
    (obj : URIObj) (rie nr : Bool)
    (hfresh : ∀ p ∈ m.registrations, p.1 ≠ obj.registration_id)
    (hlt : obj.registration_id < m.counter) :
    GoodMgr (m.create name obj rie nr).1 := by
  by_cases hv : uri_pattern_ok name = true
  · cases hl : alookup m.uris name with
    | some u =>
      rw [create_fst_exists obj rie nr hv hl]
      exact hg
    | none =>
      rw [create_insert obj rie nr hv hl]
      have hnr : alookup m.registrations obj.registration_id = none := by
        rw [alookup_eq_none]
        intro hc
        obtain ⟨v, hvmem⟩ := mem_keysOf.mp hc
        exact hfresh _ hvmem rfl
      have hnu : name ∉ keysOf m.uris := (alookup_eq_none _ _).mp hl
      have hkr : keysOf (m.registrations ++ [(obj.registration_id, name)]) =
          keysOf m.registrations ++ [obj.registration_id] := by
        simp [keysOf]
      have hku : keysOf (m.uris ++ [(name, obj)]) =
          keysOf m.uris ++ [name] := by
        simp [keysOf]
      constructor
      · show (keysOf
          (aset m.registrations obj.registration_id name)).Nodup
        rw [aset_of_none hnr, hkr, List.nodup_append]
        refine ⟨hg.regs_nodup, List.nodup_singleton _, ?_⟩
        intro a ha hb
        simp only [List.mem_singleton] at hb
        subst hb
        obtain ⟨v, hv2⟩ := mem_keysOf.mp ha
        exact hfresh _ hv2 rfl
      · show (keysOf (m.uris ++ [(name, obj)])).Nodup
        rw [hku, List.nodup_append]
        refine ⟨hg.uris_nodup, List.nodup_singleton _, ?_⟩
        intro a ha hb
        simp only [List.mem_singleton] at hb
        subst hb
        exact hnu ha
      · show ∀ p ∈ aset m.registrations obj.registration_id name,
          ∃ u, alookup (m.uris ++ [(name, obj)]) p.2 = some u ∧
            u.registration_id = p.1
        rw [aset_of_none hnr]
        intro p hp
        rcases List.mem_append.mp hp with hp | hp
        · obtain ⟨u, hu, hr⟩ := hg.reg_to_uri p hp
          exact ⟨u, by rw [alookup_append, hu], hr⟩
        · simp only [List.mem_singleton] at hp
          subst hp
          refine ⟨obj, ?_, rfl⟩
          rw [alookup_append, hl]
          simp [alookup]
      · show ∀ q ∈ m.uris ++ [(name, obj)],
          ((aset m.registrations obj.registration_id name).filter
            (fun p => p.2 == q.1)).length = 1
        rw [aset_of_none hnr]
        intro q hq
        rcases List.mem_append.mp hq with hq | hq
        · rw [List.filter_append]
          have hnil : [(obj.registration_id, name)].filter
              (fun p => p.2 == q.1) = [] := by
            simp only [List.filter_eq_nil_iff]
            intro p hp
            simp only [List.mem_singleton] at hp
            subst hp
            simp only [beq_iff_eq]
            intro he
            exact hnu (he ▸ mem_keysOf.mpr ⟨q.2, hq⟩)
          rw [hnil, List.append_nil]
          exact hg.uri_to_reg q hq
        · simp only [List.mem_singleton] at hq
          subst hq
          rw [List.filter_append]
          have h1 : m.registrations.filter (fun p => p.2 == name) = [] := by
            simp only [List.filter_eq_nil_iff]
            intro p hp
            simp only [beq_iff_eq]
            intro he
            obtain ⟨u, hu, _⟩ := hg.reg_to_uri p hp
            rw [he, hl] at hu
            exact Option.noConfusion hu
          rw [h1]
          simp
      · show ∀ p ∈ aset m.registrations obj.registration_id name,
          p.1 < m.counter
        rw [aset_of_none hnr]
        intro p hp
        rcases List.mem_append.mp hp with hp | hp
        · exact hg.lt_counter p hp
        · simp only [List.mem_singleton] at hp
          subst hp
          exact hlt
      · show ∀ q ∈ m.uris ++ [(name, obj)], uri_pattern_ok q.1 = true
        intro q hq
        rcases List.mem_append.mp hq with hq | hq
        · exact hg.names_valid q hq
        · simp only [List.mem_singleton] at hq
          subst hq
          exact hv
  · have := create_invalid (m := m) obj rie nr hv
    rw [this]
    exact hg

theorem create_topic_fst (m : URIManager) (name : String)
    (res : Option Handler) :
    (m.create_topic name res).1 =
      ({ m with counter := m.counter + 1 }.create name
        (URIObj.topic (Topic.mk name m.counter res [])) true false).1 := by
  unfold URIManager.create_topic
  simp only [Topic.make]
  rcases hc : URIManager.create { m with counter := m.counter + 1 } name
      (URIObj.topic (Topic.mk name m.counter res [])) true false with ⟨m1, r⟩
  cases r with
  | error e => simp [hc]
  | ok o =>
    cases o with
    | none => simp [hc]
    | some p =>
      obtain ⟨u, rid⟩ := p
      by_cases hty : u.uri_type ≠ URIType.topic <;> simp [hc, hty]

theorem goodMgr_create_topic {m : URIManager} (hg : GoodMgr m)
    (name : String) (res : Option Handler) :
    GoodMgr (m.create_topic name res).1 := by
  rw [create_topic_fst]
  exact goodMgr_create (goodMgr_counter_le hg (Nat.le_succ _)) name _ true
    false (fun p hp => Nat.ne_of_lt (hg.lt_counter p hp))
    (Nat.lt_succ_self _)

theorem create_error_fst (m : URIManager) (name : String) :
    (m.create_error name).1 =
      ({ m with counter := m.counter + 1 }.create name
        (URIObj.error name m.counter) true false).1 := rfl

theorem goodMgr_create_error {m : URIManager} (hg : GoodMgr m)
    (name : String) : GoodMgr (m.create_error name).1 := by
  rw [create_error_fst]
  exact goodMgr_create (goodMgr_counter_le hg (Nat.le_succ _)) name _ true
    false (fun p hp => Nat.ne_of_lt (hg.lt_counter p hp))
    (Nat.lt_succ_self _)

theorem create_procedure_fst (m : URIManager) (name : String)
    (provider : Handler) :
    (m.create_procedure name provider).1 =
      ({ m with counter := m.counter + 1 }.create name
        (URIObj.procedure name m.counter provider) false false).1 := rfl

theorem goodMgr_create_procedure {m : URIManager} (hg : GoodMgr m)
    (name : String) (provider : Handler) :
    GoodMgr (m.create_procedure name provider).1 := by
  rw [create_procedure_fst]
  exact goodMgr_create (goodMgr_counter_le hg (Nat.le_succ _)) name _ false
    false (fun p hp => Nat.ne_of_lt (hg.lt_counter p hp))
    (Nat.lt_succ_self _)

/-- With nodup keys, the erased key is gone from the keys. -/
theorem keysOf_aerase_not_mem {K V : Type} [DecidableEq K]
    {l : List (K × V)} {k : K} {v : V} (hnd : (keysOf l).Nodup)
    (h : alookup l k = some v) : k ∉ keysOf (aerase l k) := by
  obtain ⟨l1, l2, hdec, hderase, _⟩ := aerase_decomp h
  subst hdec
  rw [hderase]
  have hnd' : (keysOf l1 ++ k :: keysOf l2).Nodup := by
    simpa [keysOf] using hnd
  intro hc
  rw [show keysOf (l1 ++ l2) = keysOf l1 ++ keysOf l2 by simp [keysOf]] at hc
  rcases List.mem_append.mp hc with hc | hc
  · exact (List.disjoint_of_nodup_append hnd') hc (by simp)
  · exact (List.nodup_cons.mp (List.nodup_append.mp hnd').2.1).1 hc

/-- Characterization of `remove` on a known registration whose name is
uniquely bound and present. -/
theorem remove_some {m : URIManager} {rid : Nat} {name : String}
    (hl : alookup m.registrations rid = some name) (hne : ¬(name = ""))
    (hany : ((aerase m.registrations rid).any
      (fun p => p.2 == name)) = false)
    {u : URIObj} (halu : alookup m.uris name = some u) :
    m.remove rid =
      ({ m with registrations := aerase m.registrations rid,
                uris := aerase m.uris name }, .ok (some u)) := by
  unfold URIManager.remove
  simp [hl, hne, hany, halu]

theorem goodMgr_remove {m : URIManager} (hg : GoodMgr m) (rid : Nat) :
    GoodMgr (m.remove rid).1 := by
  cases hl : alookup m.registrations rid with
  | none =>
    unfold URIManager.remove
    rw [hl]
    exact hg
  | some name =>
    have hmem : (rid, name) ∈ m.registrations := alookup_some_mem hl
    obtain ⟨u, halu, hureg⟩ := hg.reg_to_uri _ hmem
    have humem : (name, u) ∈ m.uris := alookup_some_mem halu
    have hvalid := hg.names_valid _ humem
    have hne_empty : ¬(name = "") := by
      intro he
      rw [he, uri_pattern_ok_empty] at hvalid
      exact Bool.noConfusion hvalid
    obtain ⟨l1, l2, hdec, hderase, hl1k⟩ := aerase_decomp hl
    have hfilter1 := hg.uri_to_reg _ humem
    have hlen : (l1.filter (fun p => p.2 == name)).length +
        ((l2.filter (fun p => p.2 == name)).length + 1) = 1 := by
      rw [hdec] at hfilter1
      simpa [List.filter_append, List.filter_cons] using hfilter1
    have hf1 : l1.filter (fun p => p.2 == name) = [] :=
      List.length_eq_zero.mp (by omega)
    have hf2 : l2.filter (fun p => p.2 == name) = [] :=
      List.length_eq_zero.mp (by omega)
    have hany : ((aerase m.registrations rid).any
        (fun p => p.2 == name)) = false := by
      rw [hderase, List.any_eq_false]
      intro p hp
      rcases List.mem_append.mp hp with hp | hp
      · exact List.filter_eq_nil_iff.mp hf1 p hp
      · exact List.filter_eq_nil_iff.mp hf2 p hp
    rw [remove_some hl hne_empty hany halu]
    constructor
    · show (keysOf (aerase m.registrations rid)).Nodup
      exact hg.regs_nodup.sublist ((aerase_sublist _ _).map Prod.fst)
    · show (keysOf (aerase m.uris name)).Nodup
      exact hg.uris_nodup.sublist ((aerase_sublist _ _).map Prod.fst)
    · show ∀ p ∈ aerase m.registrations rid,
        ∃ u', alookup (aerase m.uris name) p.2 = some u' ∧
          u'.registration_id = p.1
      intro p hp
      have hpm : p ∈ m.registrations := (aerase_sublist _ _).subset hp
      have hpne : p.2 ≠ name := by
        intro he
        have hnotp : ¬((fun p => p.2 == name) p = true) := by
          rw [hderase] at hp
          rcases List.mem_append.mp hp with hp' | hp'
          · exact List.filter_eq_nil_iff.mp hf1 p hp'
          · exact List.filter_eq_nil_iff.mp hf2 p hp'
        exact hnotp (by simp [he])
      obtain ⟨u', hu', hr'⟩ := hg.reg_to_uri p hpm
      exact ⟨u', by rw [alookup_aerase_ne _ _ _ hpne, hu'], hr'⟩
    · show ∀ q ∈ aerase m.uris name,
        ((aerase m.registrations rid).filter
          (fun p => p.2 == q.1)).length = 1
      intro q hq
      have hqm : q ∈ m.uris := (aerase_sublist _ _).subset hq
      have hqne : q.1 ≠ name := by
        intro he
        have hk : q.1 ∈ keysOf (aerase m.uris name) :=
          mem_keysOf.mpr ⟨q.2, hq⟩
        rw [he] at hk
        exact keysOf_aerase_not_mem hg.uris_nodup halu hk
      have horig := hg.uri_to_reg q hqm
      have hnameq : (name == q.1) = false :=
        beq_eq_false_iff_ne.mpr (fun he => hqne he.symm)
      rw [hdec, List.filter_append, List.filter_cons] at horig
      simp only [hnameq] at horig
      rw [hderase, List.filter_append]
      simpa using horig
    · show ∀ p ∈ aerase m.registrations rid, p.1 < m.counter
      intro p hp
      exact hg.lt_counter p ((aerase_sublist _ _).subset hp)
    · show ∀ q ∈ aerase m.uris name, uri_pattern_ok q.1 = true
      intro q hq
      exact hg.names_valid q ((aerase_sublist _ _).subset hq)

theorem remove_subscriber_registration_id (t : Topic) (h : Handler) :
    (t.remove_subscriber h).1.registration_id = t.registration_id := by
  unfold Topic.remove_subscriber
  cases alookup t.subscribers h.sessionid <;> simp

/-- Replacing a stored URI object by one with the same registration id
preserves the invariant. -/
theorem goodMgr_aset_same {m : URIManager} (hg : GoodMgr m) {name : String}
    {t : URIObj} (hl : alookup m.uris name = some t) (t' : URIObj)
    (hrid : t'.registration_id = t.registration_id) :
    GoodMgr { m with uris := aset m.uris name t' } := by
  have hset : aset m.uris name t' = aupdate m.uris name t' :=
    aset_of_isSome (by simp [hl]) _
  rw [hset]
  constructor
  · exact hg.regs_nodup
  · show (keysOf (aupdate m.uris name t')).Nodup
    rw [keysOf_aupdate]
    exact hg.uris_nodup
  · show ∀ p ∈ m.registrations,
      ∃ u, alookup (aupdate m.uris name t') p.2 = some u ∧
        u.registration_id = p.1
    intro p hp
    obtain ⟨u, hu, hr⟩ := hg.reg_to_uri p hp
    by_cases hpn : p.2 = name
    · subst hpn
      have hut : u = t := by
        rw [hu] at hl
        exact (Option.some.injEq _ _).mp hl
      refine ⟨t', alookup_aupdate_self (by simp [hu]) t', ?_⟩
      rw [hrid, ← hut, hr]
    · rw [alookup_aupdate_ne _ _ _ _ hpn]
      exact ⟨u, hu, hr⟩
  · show ∀ q ∈ aupdate m.uris name t',
      (m.registrations.filter (fun p => p.2 == q.1)).length = 1
    intro q hq
    rcases mem_aupdate hq with hq' | hq'
    · subst hq'
      simpa using hg.uri_to_reg (name, t) (alookup_some_mem hl)
    · exact hg.uri_to_reg q hq'
  · exact hg.lt_counter
  · show ∀ q ∈ aupdate m.uris name t', uri_pattern_ok q.1 = true
    intro q hq
    rcases mem_aupdate hq with hq' | hq'
    · subst hq'
      simpa using hg.names_valid (name, t) (alookup_some_mem hl)
    · exact hg.names_valid q hq'

theorem goodMgr_add_subscriber {m : URIManager} (hg : GoodMgr m)
    (name : String) (h : Handler) :
    GoodMgr (m.add_subscriber name h).1 := by
  unfold URIManager.add_subscriber
  split
  next m1 e hct =>
    have hgt := goodMgr_create_topic hg name none
    rw [hct] at hgt
    exact hgt
  next m1 u rid hct =>
    have hg1 : GoodMgr m1 := by
      have hgt := goodMgr_create_topic hg name none
      rw [hct] at hgt
      exact hgt
    split
    next t hlu =>
      have h1 := goodMgr_aset_same hg1 hlu
        (URIObj.topic ((t.add_subscriber (.real h) m1.counter).1)) rfl
      exact goodMgr_counter_le h1 (Nat.le_succ _)
    next => exact hg1
    next => exact hg1

theorem goodMgr_remove_subscriber {m : URIManager} (hg : GoodMgr m)
    (name : String) (h : Handler) :
    GoodMgr (m.remove_subscriber name h).1 := by
  unfold URIManager.remove_subscriber
  split
  next => exact hg
  next t hlu =>
    exact goodMgr_aset_same hg hlu
      (URIObj.topic ((t.remove_subscriber h).1))
      (remove_subscriber_registration_id t h)
  next => exact hg

theorem goodMgr_applyOp {m : URIManager} (hg : GoodMgr m) (op : MOp) :
    GoodMgr (applyOp m op) := by
  cases op with
  | createTopic n r => exact goodMgr_create_topic hg n r
  | createError n => exact goodMgr_create_error hg n
  | createProcedure n p => exact goodMgr_create_procedure hg n p
  | removeReg rid => exact goodMgr_remove hg rid
  | addSub n h => exact goodMgr_add_subscriber hg n h
  | removeSub n h => exact goodMgr_remove_subscriber hg n h

theorem goodMgr_foldl_create_error (names : List String) (m : URIManager)
    (hg : GoodMgr m) :
    GoodMgr (names.foldl (fun m n => (m.create_error n).1) m) := by
  induction names generalizing m with
  | nil => exact hg
  | cons n rest ih => exact ih _ (goodMgr_create_error hg n)

theorem goodMgr_init (c0 : Nat) : GoodMgr (URIManager.init c0) :=
  goodMgr_foldl_create_error _ _ (goodMgr_empty c0)

theorem goodMgr_runOps {m : URIManager} (hg : GoodMgr m) (ops : List MOp) :
    GoodMgr (runOps m ops) := by
  induction ops generalizing m with
  | nil => exact hg
  | cons op rest ih => exact ih (goodMgr_applyOp hg op)

theorem bijInv_of_goodMgr {m : URIManager} (hg : GoodMgr m) :
    bijInv m = true := by
  unfold bijInv
  rw [Bool.and_eq_true]
  constructor
  · rw [List.all_eq_true]
    intro p hp
    obtain ⟨u, hu, hr⟩ := hg.reg_to_uri p hp
    simp [hu, hr]
  · rw [List.all_eq_true]
    intro q hq
    simp [hg.uri_to_reg q hq]

/-- **C2** (amended): for every manager reachable from a fresh manager by a
sequence of its mutating operations other than `disconnect` (`create` being
exercised through the typed creators, as in the repository), the bijection
between `registrations` and `uris` holds; `disconnect` breaks it by deleting
non-live URIs from `uris` while leaving their `registrations` entries (see
the counterexample). -/
theorem c2_bijection_without_disconnect (c0 : Nat) (ops : List MOp) :
    bijInv (runOps (URIManager.init c0) ops) = true :=
  bijInv_of_goodMgr (goodMgr_runOps (goodMgr_init c0) ops)

end Wampnado
